import Mathlib

/-!
Verification of the pdf-chatbot document-to-retrieval pipeline.

The Python sources are shallowly embedded as Lean functions:
* `src/utils/chunking.py` — `_chunk_text`, `build_documents`;
* `src/utils/pdf_processor.py` — `_clean_text`, `extract_text_by_page`;
* `src/utils/rag_chain.py` — `_write_store_type`, `_read_store_type`,
  `build_and_save_store`, `load_store`;
* `src/app.py` — the history-pairing loop and the `/chat` handler.

Python strings are modelled as `List Char` (text being sliced) or `String`
(identifiers); Python ints as `Int` with explicit conversions; the filesystem
of one store directory as an explicit record of the files the code writes;
external libraries (FAISS, Chroma, DocArray, pdfplumber, PyPDF2, the LLM) as
environment records describing whether each call succeeds and what it yields.
-/

namespace PdfChatbot

/-! ## Chunker (`src/utils/chunking.py`) -/

/-- Python slice `s[a:b]` for a natural start index `a` and an `Int` end
index `b`: a negative `b` counts from the end of the string, and both
bounds are clamped to the string. -/
def pySlice (s : List Char) (a : Nat) (b : Int) : List Char :=
  let n : Int := s.length
  let e : Nat := (if b < 0 then max 0 (n + b) else min b n).toNat
  (s.take e).drop a

/-- The `while start < n` loop of `_chunk_text`: emit `text[start:end]` with
`end = min(n, start + size)`; stop if `end >= n`, else advance `start` by
`step`.  The source computes `step = max(1, size - overlap)`, so `step` is
always positive and the loop makes progress; totality here mirrors exactly
that argument. -/
def chunkLoop (text : List Char) (size : Int) (step : Nat) (hstep : 0 < step)
    (start : Nat) : List (List Char) :=
  if h : start < text.length then
    if (text.length : Int) ≤ min (text.length : Int) ((start : Int) + size) then
      [pySlice text start (min (text.length : Int) ((start : Int) + size))]
    else
      pySlice text start (min (text.length : Int) ((start : Int) + size)) ::
        chunkLoop text size step hstep (start + step)
  else []
termination_by text.length - start
decreasing_by omega

/-- `_chunk_text(text, size, overlap)` from `src/utils/chunking.py`:
returns `[]` on empty text, otherwise runs the slicing loop from offset 0
with `step = max(1, size - overlap)`. -/
def _chunk_text (text : List Char) (size overlap : Int) : List (List Char) :=
  if text.isEmpty then []
  else chunkLoop text size (max 1 (size - overlap)).toNat (by omega) 0

/-- De-overlapped concatenation: keep the first chunk whole and drop the
first `ov` characters of every later chunk, then concatenate.  This is the
reading of the spec's "concatenation (de-overlapped)". -/
def deoverlapConcat (ov : Nat) : List (List Char) → List Char
  | [] => []
  | c :: rest => c ++ (rest.map (List.drop ov)).flatten

lemma slice_append_drop (l : List Char) (a b : Nat) (h : a ≤ b) :
    List.drop a (l.take b) ++ l.drop b = l.drop a := by
  rw [List.drop_take]
  have hd : l.drop b = List.drop (b - a) (l.drop a) := by
    rw [List.drop_drop]; congr 1; omega
  rw [hd, List.take_append_drop]

lemma take_min (l : List Char) (b : Nat) : l.take (min b l.length) = l.take b := by
  rcases le_total b l.length with h | h
  · simp [Nat.min_eq_left h]
  · simp [Nat.min_eq_right h, List.take_of_length_le, List.take_of_length_le h]

/-- A Python slice with a non-negative end index is `take` then `drop`. -/
lemma pySlice_natCast (s : List Char) (a b : Nat) :
    pySlice s a (b : Int) = (s.take b).drop a := by
  unfold pySlice
  have h1 : ¬ ((b : Int) < 0) := by omega
  simp only [h1, if_false]
  have h2 : (min (b : Int) (s.length : Int)).toNat = min b s.length := by omega
  rw [h2, take_min]

/-- Tail of the de-overlap argument: dropping `overlap` characters from every
chunk emitted from offset `start` on and concatenating gives the text from
offset `start + overlap`. -/
lemma chunkLoop_map_drop_flatten (text : List Char) (size overlap : Int) (step : Nat)
    (hstep : 0 < step) (h1 : 0 < size) (h2 : 0 ≤ overlap) (h3 : overlap < size)
    (hse : (step : Int) = size - overlap) :
    ∀ k start, text.length - start ≤ k → start < text.length →
      ((chunkLoop text size step hstep start).map (List.drop overlap.toNat)).flatten
        = text.drop (start + overlap.toNat) := by
  intro k
  induction k with
  | zero => intro start hk hs; omega
  | succ k ih =>
    intro start hk hs
    rw [chunkLoop, dif_pos hs]
    by_cases hend : (text.length : Int) ≤ min (text.length : Int) ((start : Int) + size)
    · rw [if_pos hend]
      have hm : min (text.length : Int) ((start : Int) + size) = ((text.length : Nat) : Int) := by
        omega
      rw [hm, pySlice_natCast]
      simp only [List.map_cons, List.map_nil, List.flatten_cons, List.flatten_nil,
        List.append_nil, List.take_length]
      rw [List.drop_drop]
    · rw [if_neg hend]
      have hlt : start + size.toNat < text.length := by omega
      have hm : min (text.length : Int) ((start : Int) + size)
          = ((start + size.toNat : Nat) : Int) := by push_cast; omega
      rw [hm, pySlice_natCast]
      simp only [List.map_cons, List.flatten_cons]
      rw [ih (start + step) (by omega) (by omega)]
      rw [List.drop_drop]
      have h5 : start + overlap.toNat ≤ start + size.toNat := by omega
      have hrw : start + step + overlap.toNat = start + size.toNat := by omega
      rw [hrw, slice_append_drop _ _ _ h5]

/-- De-overlapping the chunks emitted from offset `start` reconstructs the
text from offset `start`. -/
lemma chunkLoop_deoverlap (text : List Char) (size overlap : Int) (step : Nat)
    (hstep : 0 < step) (h1 : 0 < size) (h2 : 0 ≤ overlap) (h3 : overlap < size)
    (hse : (step : Int) = size - overlap) (start : Nat) (hs : start < text.length) :
    deoverlapConcat overlap.toNat (chunkLoop text size step hstep start)
      = text.drop start := by
  rw [chunkLoop, dif_pos hs]
  by_cases hend : (text.length : Int) ≤ min (text.length : Int) ((start : Int) + size)
  · rw [if_pos hend]
    have hm : min (text.length : Int) ((start : Int) + size) = ((text.length : Nat) : Int) := by
      omega
    rw [hm, pySlice_natCast]
    simp [deoverlapConcat, List.take_length]
  · rw [if_neg hend]
    have hlt : start + size.toNat < text.length := by omega
    have hm : min (text.length : Int) ((start : Int) + size)
        = ((start + size.toNat : Nat) : Int) := by push_cast; omega
    rw [hm, pySlice_natCast]
    simp only [deoverlapConcat]
    rw [chunkLoop_map_drop_flatten text size overlap step hstep h1 h2 h3 hse
      (text.length - (start + step)) (start + step) (by omega) (by omega)]
    have hrw : start + step + overlap.toNat = start + size.toNat := by omega
    rw [hrw, slice_append_drop _ _ _ (by omega)]

lemma chunkLoop_ne_nil (text : List Char) (size : Int) (step : Nat) (hstep : 0 < step)
    (start : Nat) (hs : start < text.length) :
    chunkLoop text size step hstep start ≠ [] := by
  rw [chunkLoop, dif_pos hs]
  split <;> simp

/-- Claim C2: for `size > 0` and `0 ≤ overlap < size`, chunking one page
terminates (the function is total), the chunk list is empty exactly when the
text is empty, and keeping the first chunk whole while dropping the
`overlap`-character prefix of every later chunk reconstructs the text. -/
theorem chunk_text_deoverlap (text : List Char) (size overlap : Int)
    (h1 : 0 < size) (h2 : 0 ≤ overlap) (h3 : overlap < size) :
    (_chunk_text text size overlap = [] ↔ text = [])
      ∧ deoverlapConcat overlap.toNat (_chunk_text text size overlap) = text := by
  unfold _chunk_text
  by_cases he : text = []
  · subst he; simp [deoverlapConcat]
  · have hne : text.isEmpty = false := by simpa [List.isEmpty_iff] using he
    rw [hne]
    simp only [Bool.false_eq_true, if_false]
    have hlen : 0 < text.length := List.length_pos.mpr he
    constructor
    · constructor
      · intro hnil
        exact absurd hnil (chunkLoop_ne_nil text size _ _ 0 hlen)
      · intro h; exact absurd h he
    · rw [chunkLoop_deoverlap text size overlap _ _ h1 h2 h3 (by omega) 0 hlen]
      simp

/-- Witness for C2 at `text = "abc"`, `size = 2`, `overlap = 1`. -/
theorem chunk_text_deoverlap_w :
    (_chunk_text ['a','b','c'] 2 1 = [] ↔ (['a','b','c'] : List Char) = [])
      ∧ deoverlapConcat (1 : Int).toNat (_chunk_text ['a','b','c'] 2 1) = ['a','b','c'] :=
  chunk_text_deoverlap ['a','b','c'] 2 1 (by decide) (by decide) (by decide)

/-- With `size = 0` the loop still runs, advancing by the floored step 1 and
emitting an empty slice at every position. -/
lemma chunkLoop_size_zero (text : List Char) (step : Nat) (hstep : 0 < step)
    (hse : step = 1) :
    ∀ k start, text.length - start ≤ k →
      chunkLoop text 0 step hstep start = List.replicate (text.length - start) [] := by
  subst hse
  intro k
  induction k with
  | zero =>
    intro start hk
    rw [chunkLoop]
    have hns : ¬ (start < text.length) := by omega
    rw [dif_neg hns]
    have : text.length - start = 0 := by omega
    rw [this]; rfl
  | succ k ih =>
    intro start hk
    rw [chunkLoop]
    by_cases hs : start < text.length
    · rw [dif_pos hs]
      have hm : min (text.length : Int) ((start : Int) + 0) = ((start : Nat) : Int) := by omega
      have hend : ¬ ((text.length : Int) ≤ min (text.length : Int) ((start : Int) + 0)) := by
        omega
      rw [if_neg hend, hm]
      have hsl : pySlice text start ((start : Nat) : Int) = [] := by
        unfold pySlice
        have h1 : ¬ (((start : Nat) : Int) < 0) := by omega
        simp only [h1, if_false]
        apply List.drop_eq_nil_of_le
        simp
      rw [hsl, ih (start + 1) (by omega)]
      have : text.length - start = (text.length - (start + 1)) + 1 := by omega
      rw [this, List.replicate_succ]
    · rw [dif_neg hs]
      have : text.length - start = 0 := by omega
      rw [this]; rfl

/-- Claim C5, amended: `_chunk_text` performs no parameter validation.  With
the invalid parameters `size = 0`, `overlap = 0` it returns normally, emitting
one empty chunk per character position instead of failing. -/
theorem chunk_text_no_validation (text : List Char) :
    _chunk_text text 0 0 = List.replicate text.length [] := by
  unfold _chunk_text
  by_cases he : text = []
  · subst he; simp
  · have hne : text.isEmpty = false := by simpa [List.isEmpty_iff] using he
    rw [hne]
    simp only [Bool.false_eq_true, if_false]
    rw [chunkLoop_size_zero text _ _ (by omega) text.length 0 (by omega)]
    simp

/-- Counterexample to claim C5 as stated: at `size = 0`, `overlap = 0` the
operation does not fail fast before producing chunks — it returns the chunk
list `["", ""]` for the text `"ab"`. -/
theorem chunk_text_cex : _chunk_text ['a','b'] 0 0 = [[], []] := by
  have h := chunk_text_no_validation ['a','b']
  simpa using h

/-- The `i`-th emitted chunk is the slice starting at offset `start + i * step`:
successive chunk start offsets advance by exactly `step`. -/
lemma chunkLoop_getElem (text : List Char) (size : Int) (step : Nat) (hstep : 0 < step) :
    ∀ i start c, (chunkLoop text size step hstep start)[i]? = some c →
      c = pySlice text (start + i * step)
            (min (text.length : Int) (((start + i * step : Nat) : Int) + size)) := by
  intro i
  induction i with
  | zero =>
    intro start c hc
    rw [chunkLoop] at hc
    by_cases hs : start < text.length
    · rw [dif_pos hs] at hc
      have : c = pySlice text start (min (text.length : Int) ((start : Int) + size)) := by
        rcases Classical.em ((text.length : Int)
            ≤ min (text.length : Int) ((start : Int) + size)) with hend | hend
        · rw [if_pos hend] at hc; simpa using hc.symm
        · rw [if_neg hend] at hc; simpa using hc.symm
      simpa using this
    · rw [dif_neg hs] at hc; simp at hc
  | succ i ih =>
    intro start c hc
    rw [chunkLoop] at hc
    by_cases hs : start < text.length
    · rw [dif_pos hs] at hc
      rcases Classical.em ((text.length : Int)
          ≤ min (text.length : Int) ((start : Int) + size)) with hend | hend
      · rw [if_pos hend] at hc; simp at hc
      · rw [if_neg hend] at hc
        rw [List.getElem?_cons_succ] at hc
        have h := ih (start + step) c hc
        have harith : start + step + i * step = start + (i + 1) * step := by ring
        rwa [harith] at h
    · rw [dif_neg hs] at hc; simp at hc

/-- With step 1 the loop emits `length - size + 1` chunks. -/
lemma chunkLoop_length_one (text : List Char) (size : Int) (step : Nat) (hstep : 0 < step)
    (h1 : 0 < size) (hse : step = 1) :
    ∀ k start, text.length - start ≤ k → start < text.length →
      (chunkLoop text size step hstep start).length
        = text.length - size.toNat - start + 1 := by
  subst hse
  intro k
  induction k with
  | zero => intro start hk hs; omega
  | succ k ih =>
    intro start hk hs
    rw [chunkLoop, dif_pos hs]
    by_cases hend : (text.length : Int) ≤ min (text.length : Int) ((start : Int) + size)
    · rw [if_pos hend]
      simp only [List.length_singleton]
      omega
    · rw [if_neg hend]
      simp only [List.length_cons]
      rw [ih (start + 1) (by omega) (by omega)]
      omega

/-- Claim C8: each successive chunk's start offset advances by exactly
`max(1, size - overlap)` (the `i`-th chunk is the slice starting at
`i * max(1, size - overlap)`), and for `overlap = size - 1` on text longer
than `size` the chunk count is `len(text) - size + 1`. -/
theorem chunk_text_step (text : List Char) (size overlap : Int)
    (h1 : 0 < size) (h2 : 0 ≤ overlap) (h3 : overlap < size) :
    (∀ i c, (_chunk_text text size overlap)[i]? = some c →
        c = pySlice text (i * (max 1 (size - overlap)).toNat)
              (min (text.length : Int)
                (((i * (max 1 (size - overlap)).toNat : Nat) : Int) + size)))
    ∧ (overlap = size - 1 → size.toNat < text.length →
        (_chunk_text text size overlap).length = text.length - size.toNat + 1) := by
  constructor
  · intro i c hc
    unfold _chunk_text at hc
    by_cases he : text.isEmpty
    · rw [if_pos he] at hc; simp at hc
    · rw [if_neg he] at hc
      have h := chunkLoop_getElem text size _ _ i 0 c hc
      simpa using h
  · intro hov hlen
    unfold _chunk_text
    have he : text ≠ [] := by intro h; subst h; simp at hlen
    have hne : text.isEmpty = false := by simpa [List.isEmpty_iff] using he
    rw [hne]
    simp only [Bool.false_eq_true, if_false]
    rw [chunkLoop_length_one text size _ _ (by omega) (by omega) text.length 0 (by omega)
      (by omega)]
    omega

/-- Witness for C8 at `text = "abcd"`, `size = 2`, `overlap = 1`. -/
theorem chunk_text_step_w : (_chunk_text ['a','b','c','d'] 2 1).length = 3 := by
  have h := (chunk_text_step ['a','b','c','d'] 2 1 (by decide) (by decide) (by decide)).2
    (by decide) (by decide)
  simpa using h

/-! ## Decimal rendering of naturals

`chunk_id` strings are built with Python f-string interpolation of integers;
the Lean side uses `toString`/`Nat.repr`.  Injectivity of the decimal
rendering is needed to show `chunk_id` uniqueness. -/

/-- Reference recursion for the decimal digit list of `n` (most significant
digit first), matching what `Nat.toDigits 10` produces. -/
def decDigits (n : Nat) : List Char :=
  if _h : n < 10 then [Nat.digitChar n]
  else decDigits (n / 10) ++ [Nat.digitChar (n % 10)]
termination_by n
decreasing_by exact Nat.div_lt_self (by omega) (by omega)

lemma decDigits_lt {n : Nat} (h : n < 10) : decDigits n = [Nat.digitChar n] := by
  rw [decDigits, dif_pos h]

lemma decDigits_ge {n : Nat} (h : ¬ n < 10) :
    decDigits n = decDigits (n / 10) ++ [Nat.digitChar (n % 10)] := by
  rw [decDigits]
  exact dif_neg h

lemma toDigitsCore_eq : ∀ (fuel n : Nat) (ds : List Char), n < fuel →
    Nat.toDigitsCore 10 fuel n ds = decDigits n ++ ds := by
  intro fuel
  induction fuel with
  | zero => intro n ds h; omega
  | succ fuel ih =>
    intro n ds h
    rw [Nat.toDigitsCore]
    by_cases h0 : n / 10 = 0
    · have hn : n < 10 := by omega
      rw [if_pos h0, decDigits_lt hn]
      have : n % 10 = n := Nat.mod_eq_of_lt hn
      rw [this]
      rfl
    · have hn : ¬ (n < 10) := by omega
      rw [if_neg h0]
      rw [ih (n / 10) _ (by
        have := Nat.div_lt_self (n := n) (by omega) (by omega : 1 < 10)
        omega)]
      rw [decDigits_ge hn]
      simp

lemma toDigits_eq (n : Nat) : Nat.toDigits 10 n = decDigits n := by
  rw [Nat.toDigits, toDigitsCore_eq (n + 1) n [] (by omega)]
  simp

lemma decDigits_ne_nil (n : Nat) : decDigits n ≠ [] := by
  by_cases h : n < 10
  · rw [decDigits_lt h]; simp
  · rw [decDigits_ge h]; simp

lemma digitChar_inj (a b : Nat) (ha : a < 10) (hb : b < 10)
    (h : Nat.digitChar a = Nat.digitChar b) : a = b := by
  interval_cases a <;> interval_cases b <;> revert h <;> decide

lemma decDigits_inj : ∀ a b : Nat, decDigits a = decDigits b → a = b := by
  intro a
  induction a using Nat.strong_induction_on with
  | _ a ih =>
    intro b hab
    by_cases ha : a < 10 <;> by_cases hb : b < 10
    · rw [decDigits_lt ha, decDigits_lt hb] at hab
      exact digitChar_inj a b ha hb (by simpa using hab)
    · rw [decDigits_lt ha, decDigits_ge hb] at hab
      have hlen := congrArg List.length hab
      simp only [List.length_append, List.length_singleton, List.length_cons,
        List.length_nil] at hlen
      have h0 : (decDigits (b / 10)).length = 0 := by omega
      exact absurd (List.length_eq_zero.mp h0) (decDigits_ne_nil _)
    · rw [decDigits_ge ha, decDigits_lt hb] at hab
      have hlen := congrArg List.length hab
      simp only [List.length_append, List.length_singleton, List.length_cons,
        List.length_nil] at hlen
      have h0 : (decDigits (a / 10)).length = 0 := by omega
      exact absurd (List.length_eq_zero.mp h0) (decDigits_ne_nil _)
    · rw [decDigits_ge ha, decDigits_ge hb] at hab
      have hrev := congrArg List.reverse hab
      simp only [List.reverse_append, List.reverse_singleton, List.singleton_append,
        List.cons.injEq, List.reverse_inj] at hrev
      obtain ⟨hd, htl⟩ := hrev
      have hdiv : a / 10 = b / 10 :=
        ih (a / 10) (Nat.div_lt_self (by omega) (by omega)) (b / 10) htl
      have hmod : a % 10 = b % 10 :=
        digitChar_inj _ _ (Nat.mod_lt _ (by omega)) (Nat.mod_lt _ (by omega)) hd
      omega

lemma natRepr_inj (a b : Nat) (h : Nat.repr a = Nat.repr b) : a = b := by
  unfold Nat.repr at h
  rw [toDigits_eq, toDigits_eq] at h
  exact decDigits_inj a b (by
    have := congrArg String.data h
    simpa [List.asString] using this)

/-! ## Document model and `build_documents` (`src/utils/chunking.py`) -/

/-- The metadata dict attached to each Document by `build_documents`. -/
structure Meta where
  page : Nat
  source : String
  chunk_id : String
deriving DecidableEq, Repr

/-- A langchain `Document`: page content plus metadata. -/
structure Document where
  page_content : List Char
  metadata : Meta
deriving DecidableEq, Repr

/-- One page dict `{"page": i, "text": t, "source": s}` as produced by
`extract_text_by_page` and consumed by `build_documents`. -/
structure PageRec where
  page : Nat
  text : List Char
  source : String
deriving DecidableEq, Repr

/-- The f-string `f"{source}-p{page_no}-c{idx}"`. -/
def mkChunkId (source : String) (page : Nat) (idx : Nat) : String :=
  source ++ "-p" ++ toString page ++ "-c" ++ toString idx

/-- The documents `build_documents` emits for one page record: one Document
per chunk, with the enumeration index baked into `chunk_id`. -/
def pageDocs (chunk_size overlap : Int) (p : PageRec) : List Document :=
  (_chunk_text p.text chunk_size overlap).enum.map fun ic =>
    ⟨ic.2, ⟨p.page, p.source, mkChunkId p.source p.page ic.1⟩⟩

/-- `build_documents(pages, chunk_size, overlap)` from
`src/utils/chunking.py`: the per-page document lists concatenated in page
order. -/
def build_documents (pages : List PageRec) (chunk_size overlap : Int) : List Document :=
  (pages.map (pageDocs chunk_size overlap)).flatten

lemma mkChunkId_inj (s : String) (pg : Nat) {i j : Nat}
    (h : mkChunkId s pg i = mkChunkId s pg j) : i = j := by
  unfold mkChunkId at h
  have hd := congrArg String.data h
  simp only [String.data_append] at hd
  have hij := List.append_cancel_left hd
  apply natRepr_inj
  apply String.ext
  exact hij

/-- Claim C9, amended: every emitted document's `chunk_id` is
`"{source}-p{page}-c{index}"` with `index` its zero-based position in the
page record's chunk sequence, and `chunk_id` values are unique within the
documents emitted from one input page record (the counterexample below shows
they can repeat within a `(source, page)` pair when two input page records
share source and page). -/
theorem build_documents_ids (pages : List PageRec) (cs ov : Int) :
    (∀ p : PageRec, ∀ i d, (pageDocs cs ov p)[i]? = some d →
        d.metadata.chunk_id = mkChunkId p.source p.page i
          ∧ d.metadata.source = p.source ∧ d.metadata.page = p.page)
    ∧ (∀ p : PageRec, ((pageDocs cs ov p).map fun d => d.metadata.chunk_id).Nodup)
    ∧ build_documents pages cs ov = (pages.map (pageDocs cs ov)).flatten := by
  refine ⟨?_, ?_, rfl⟩
  · intro p i d hd
    unfold pageDocs at hd
    rw [List.getElem?_map, List.getElem?_enum] at hd
    cases hc : (_chunk_text p.text cs ov)[i]? with
    | none => rw [hc] at hd; simp at hd
    | some c =>
      rw [hc] at hd
      simp only [Option.map_some', Option.some.injEq] at hd
      subst hd
      exact ⟨rfl, rfl, rfl⟩
  · intro p
    unfold pageDocs
    rw [List.map_map]
    have hmm : ((fun d : Document => d.metadata.chunk_id) ∘ fun ic : Nat × List Char =>
        (⟨ic.2, ⟨p.page, p.source, mkChunkId p.source p.page ic.1⟩⟩ : Document))
        = (fun ic : Nat × List Char => mkChunkId p.source p.page ic.1) := rfl
    rw [hmm]
    have : (fun ic : Nat × List Char => mkChunkId p.source p.page ic.1)
        = (mkChunkId p.source p.page) ∘ Prod.fst := rfl
    rw [this, ← List.map_map]
    rw [List.enum_map_fst]
    exact (List.nodup_range _).map fun a b hab => mkChunkId_inj _ _ hab

/-- Counterexample to claim C9 as stated: two input page records sharing
`(source, page)` — which the PDF extractor can produce, see C10 — yield two
documents with the same `chunk_id` inside one `(source, page)` pair. -/
theorem build_documents_ids_cex :
    (build_documents [⟨1, ['x'], "a.pdf"⟩, ⟨1, ['y'], "a.pdf"⟩] 1 0).map
        (fun d => d.metadata.chunk_id)
      = ["a.pdf-p1-c0", "a.pdf-p1-c0"] := by
  simp [build_documents, pageDocs, _chunk_text, chunkLoop, pySlice, mkChunkId]
  decide

/-! ## Page extraction (`src/utils/pdf_processor.py`) -/

/-- Python's `\s` whitespace class, over the ASCII range the repo's PDFs
produce. -/
def pyIsSpace (c : Char) : Bool :=
  c == ' ' || c == '\t' || c == '\n' || c == '\r' || c == '\x0b' || c == '\x0c'

/-- Python `str.strip()`: remove leading and trailing whitespace. -/
def pyStrip (l : List Char) : List Char :=
  ((l.dropWhile pyIsSpace).reverse.dropWhile pyIsSpace).reverse

/-- `re.sub(r"\s+", " ", text)`: collapse every maximal whitespace run to a
single space. -/
def collapseWS : List Char → List Char
  | [] => []
  | c :: rest =>
    if pyIsSpace c then ' ' :: collapseWS (rest.dropWhile pyIsSpace)
    else c :: collapseWS rest
termination_by l => l.length
decreasing_by
  · have := (List.dropWhile_sublist (l := rest) pyIsSpace).length_le
    simp only [List.length_cons]
    omega
  · simp

/-- `_clean_text` from `src/utils/pdf_processor.py`. -/
def _clean_text (t : List Char) : List Char :=
  if t = [] then [] else pyStrip (collapseWS t)

/-- `file_path.split("/")[-1]`. -/
def basename (p : String) : String := (p.splitOn "/").getLastD p

/-- Environment for one `extract_text_by_page` call: the page texts each
extraction library appends before returning or raising.  `plumberRaises`
means pdfplumber raised after appending `plumberPages`; `hasPyPDF` models
`PdfReader is not None`.  If PyPDF2 raises mid-iteration the pages it
appended are still in the shared accumulator, so `pypdfPages` are the pages
appended before a raise, if any. -/
structure ExtractEnv where
  plumberPages : List String
  plumberRaises : Bool
  hasPyPDF : Bool
  pypdfPages : List String
deriving Repr

/-- The `for i, page in enumerate(..., start=1): pages.append({...})` loop. -/
def pagesFrom (source : String) (texts : List String) : List PageRec :=
  texts.enum.map fun it => ⟨it.1 + 1, _clean_text it.2.data, source⟩

/-- `extract_text_by_page` from `src/utils/pdf_processor.py`.  The `pages`
accumulator is shared between the pdfplumber attempt and the PyPDF2
fallback; it is never reset between them. -/
def extract_text_by_page (env : ExtractEnv) (file_path : String) : List PageRec :=
  let src := basename file_path
  let p1 := pagesFrom src env.plumberPages
  if env.plumberRaises = false then p1
  else if env.hasPyPDF then p1 ++ pagesFrom src env.pypdfPages
  else p1

/-- Claim C10: extraction always returns a page list (the embedding is a
total function); the result is empty exactly when neither extractor
contributes a page; and because the accumulator is not reset between
extractor attempts, a pdfplumber failure after one appended page followed by
a PyPDF2 pass yields the same page number twice. -/
theorem extract_total_and_duplicates :
    (∀ (env : ExtractEnv) (fp : String), extract_text_by_page env fp = [] ↔
        (env.plumberPages = []
          ∧ (env.plumberRaises = true → env.hasPyPDF = true → env.pypdfPages = [])))
    ∧ (extract_text_by_page ⟨["x"], true, true, ["y"]⟩ "f.pdf").map (fun p => p.page)
        = [1, 1] := by
  constructor
  · intro env fp
    obtain ⟨pp, pr, hpy, yp⟩ := env
    cases pr <;> cases hpy <;>
      simp [extract_text_by_page, pagesFrom, List.map_eq_nil_iff, List.enum_eq_nil]
  · simp [extract_text_by_page, pagesFrom, basename, List.enum]

/-! ## Vector store adapter (`src/utils/rag_chain.py`)

The filesystem content of one store directory is a record of the files the
adapter can write: the `store_type.txt` marker, the FAISS native payload,
the Chroma native payload, and the raw-document fallback `docs.json`.
Library calls are modelled atomically: a backend either succeeds and writes
or fails and writes nothing.  Chroma is get-or-create on both sides:
`Chroma(persist_directory=...)` never fails on load — chromadb opens or
creates the collection, empty when no payload exists (the behaviour claim
C4 is about) — and `Chroma.from_documents(..., persist_directory=path)`
opens or creates that same persisted collection and adds the new documents
to it, so a successful Chroma build appends to any existing Chroma payload
rather than replacing it. -/

def pyLowerChar (c : Char) : Char :=
  if 'A' ≤ c ∧ c ≤ 'Z' then Char.ofNat (c.toNat + 32) else c

/-- Python `str.lower()` over the ASCII range used by backend names. -/
def pyLower (s : String) : String := ⟨s.data.map pyLowerChar⟩

/-- The vector-store backends of `rag_chain.py`. -/
inductive Backend
  | faiss
  | chroma
  | docarray
deriving DecidableEq, Repr

def backendName : Backend → String
  | .faiss => "faiss"
  | .chroma => "chroma"
  | .docarray => "docarray"

/-- One record of the `docs.json` fallback file:
`{"page_content": ..., "metadata": ...}`. -/
structure RawDoc where
  page_content : List Char
  metadata : Meta
deriving DecidableEq, Repr

/-- The observable content of one store directory. -/
structure FS where
  marker : Option String
  faissPayload : Option (List Document)
  chromaPayload : Option (List Document)
  docsJson : Option (List RawDoc)
deriving DecidableEq, Repr

/-- A freshly created (or cleared) store directory. -/
def emptyFS : FS := ⟨none, none, none, none⟩

/-- Which backend library calls succeed during one build. -/
structure BuildEnv where
  faissOk : Bool
  chromaOk : Bool
  docarrayOk : Bool
deriving DecidableEq, Repr

/-- `_write_store_type` from `src/utils/rag_chain.py`. -/
def _write_store_type (fs : FS) (t : String) : FS := { fs with marker := some t }

/-- `_read_store_type` from `src/utils/rag_chain.py`. -/
def _read_store_type (fs : FS) : Option String := fs.marker

/-- Serialization of one Document into the `docs.json` record: content plus
metadata, no vectors. -/
def toRaw (d : Document) : RawDoc := ⟨d.page_content, d.metadata⟩

/-- Result of a successful build: resulting directory content, the backend
that was actually used, and the backends attempted in order. -/
structure BuildOutcome where
  fs : FS
  used : Backend
  attempts : List Backend
deriving DecidableEq, Repr

/-- The final fallback of `build_and_save_store`: build the in-memory
DocArray index and persist the raw documents to `docs.json`.  If
`DocArrayInMemorySearch.from_documents` raises, the exception propagates and
nothing is written. -/
def tryDocarray (docs : List Document) (env : BuildEnv) (fs : FS)
    (attempts : List Backend) : Except String BuildOutcome :=
  if env.docarrayOk then
    .ok ⟨_write_store_type { fs with docsJson := some (docs.map toRaw) } "docarray",
      .docarray, attempts ++ [.docarray]⟩
  else .error "docarray build failed"

/-- The Chroma stage of `build_and_save_store`: on success persist and write
the marker, on failure fall through to the DocArray fallback.
`Chroma.from_documents(..., persist_directory=path)` get-or-creates the
persisted collection at `path` and adds the documents with fresh ids, so on
success the collection holds any previously persisted documents plus the
new ones. -/
def tryChroma (docs : List Document) (env : BuildEnv) (fs : FS)
    (attempts : List Backend) : Except String BuildOutcome :=
  if env.chromaOk then
    .ok ⟨_write_store_type
        { fs with chromaPayload := some (fs.chromaPayload.getD [] ++ docs) } "chroma",
      .chroma, attempts ++ [.chroma]⟩
  else tryDocarray docs env fs (attempts ++ [.chroma])

/-- `build_and_save_store(documents, embeddings, path, prefer)` from
`src/utils/rag_chain.py`: try FAISS only when `prefer.lower() == "faiss"`,
then Chroma, then the DocArray raw-document fallback.  `os.makedirs` with
`exist_ok=True` never removes existing directory content, so the incoming
`fs` fields are only ever overwritten, never cleared. -/
def build_and_save_store (docs : List Document) (env : BuildEnv) (fs : FS)
    (prefer : String) : Except String BuildOutcome :=
  if pyLower prefer = "faiss" then
    if env.faissOk then
      .ok ⟨_write_store_type { fs with faissPayload := some docs } "faiss", .faiss, [.faiss]⟩
    else tryChroma docs env fs [.faiss]
  else tryChroma docs env fs []

/-- A loaded store: which backend served it and the documents it indexes. -/
structure Loaded where
  backend : Backend
  docs : List Document
deriving DecidableEq, Repr

/-- `load_store(path, embeddings)` from `src/utils/rag_chain.py`: dispatch
on the marker.  `FAISS.load_local` raises when its payload files are absent;
the `Chroma` constructor always succeeds, opening an empty collection when
no payload exists; the docarray branch raises when `docs.json` is absent.
With no or an unrecognized marker, FAISS is tried, then Chroma (which cannot
fail), leaving the docarray reconstruction branch unreachable. -/
def load_store (fs : FS) : Except String Loaded :=
  let stype := _read_store_type fs
  if stype = some "faiss" then
    match fs.faissPayload with
    | some d => .ok ⟨.faiss, d⟩
    | none => .error "faiss payload missing"
  else if stype = some "chroma" then .ok ⟨.chroma, fs.chromaPayload.getD []⟩
  else if stype = some "docarray" then
    match fs.docsJson with
    | some raw => .ok ⟨.docarray, raw.map fun r => ⟨r.page_content, r.metadata⟩⟩
    | none => .error "docs.json missing"
  else
    match fs.faissPayload with
    | some d => .ok ⟨.faiss, d⟩
    | none => .ok ⟨.chroma, fs.chromaPayload.getD []⟩

/-- Claim C1: a successful build attempts backends in the fixed order FAISS,
Chroma, DocArray (FAISS attempted exactly when the preferred backend
lowercases to "faiss"), the backend used is the last one attempted, the
marker names exactly that backend, and that backend's payload was written
with the documents: FAISS saves a fresh index over exactly the new
documents, Chroma adds them to its (possibly pre-existing) persisted
collection, and the DocArray fallback overwrites `docs.json` with their raw
content-plus-metadata records. -/
theorem build_order_marker (docs : List Document) (env : BuildEnv) (fs : FS)
    (prefer : String) (out : BuildOutcome)
    (h : build_and_save_store docs env fs prefer = .ok out) :
    ((pyLower prefer = "faiss" →
        out.attempts = [.faiss] ∨ out.attempts = [.faiss, .chroma]
          ∨ out.attempts = [.faiss, .chroma, .docarray])
      ∧ (pyLower prefer ≠ "faiss" →
          out.attempts = [.chroma] ∨ out.attempts = [.chroma, .docarray]))
    ∧ out.attempts.getLast? = some out.used
    ∧ out.fs.marker = some (backendName out.used)
    ∧ (out.used = .faiss → out.fs.faissPayload = some docs)
    ∧ (out.used = .chroma →
        out.fs.chromaPayload = some (fs.chromaPayload.getD [] ++ docs))
    ∧ (out.used = .docarray → out.fs.docsJson = some (docs.map toRaw)) := by
  unfold build_and_save_store tryChroma tryDocarray at h
  by_cases hp : pyLower prefer = "faiss" <;>
    simp only [hp, if_true, if_false, reduceIte] at h <;>
    rcases hf : env.faissOk <;>
    rcases hc : env.chromaOk <;>
    rcases hd : env.docarrayOk <;>
    simp only [hf, hc, hd, Bool.false_eq_true, if_true, if_false, reduceIte] at h <;>
    first
      | (rw [Except.ok.injEq] at h
         subst h
         simp [_write_store_type, backendName, hp])
      | exact absurd h (by simp)

/-- Witness for C1: Chroma build after a FAISS failure, marker matches. -/
theorem build_order_marker_w :
    (⟨⟨some "chroma", none, some ([] : List Document), none⟩, .chroma,
        [.faiss, .chroma]⟩ : BuildOutcome).fs.marker
      = some (backendName .chroma) :=
  (build_order_marker [] ⟨false, true, true⟩ emptyFS "faiss" _ rfl).2.2.1

lemma map_toRaw_roundtrip (docs : List Document) :
    docs.map ((fun r => (⟨r.page_content, r.metadata⟩ : Document)) ∘ toRaw) = docs := by
  induction docs with
  | nil => rfl
  | cons d rest ih => simp [toRaw, ih]

/-- Claim C6, amended: a successful rebuild at a path overwrites the marker
with the backend actually used and a subsequent load dispatches on that
marker; after a FAISS or DocArray rebuild the load returns exactly the new
document set, but after a Chroma rebuild it returns the previously
persisted Chroma collection followed by the new documents — and files
written by an earlier build under a different backend are not deleted (see
the counterexample below). -/
theorem build_then_load (docs : List Document) (env : BuildEnv) (fs : FS)
    (prefer : String) (out : BuildOutcome)
    (h : build_and_save_store docs env fs prefer = .ok out) :
    out.fs.marker = some (backendName out.used)
      ∧ (out.used = .faiss → load_store out.fs = .ok ⟨.faiss, docs⟩)
      ∧ (out.used = .chroma →
          load_store out.fs = .ok ⟨.chroma, fs.chromaPayload.getD [] ++ docs⟩)
      ∧ (out.used = .docarray → load_store out.fs = .ok ⟨.docarray, docs⟩) := by
  unfold build_and_save_store tryChroma tryDocarray at h
  by_cases hp : pyLower prefer = "faiss" <;>
    simp only [hp, if_true, if_false, reduceIte] at h <;>
    rcases hf : env.faissOk <;>
    rcases hc : env.chromaOk <;>
    rcases hd : env.docarrayOk <;>
    simp only [hf, hc, hd, Bool.false_eq_true, if_true, if_false, reduceIte] at h <;>
    first
      | (rw [Except.ok.injEq] at h
         subst h
         simp [_write_store_type, backendName, load_store, _read_store_type,
           map_toRaw_roundtrip])
      | exact absurd h (by simp)

/-- Witness for the amended C6: a FAISS rebuild on a fresh directory loads
back exactly the new (empty) document set via the new marker. -/
theorem build_then_load_w :
    load_store (⟨some "faiss", some ([] : List Document), none, none⟩ : FS)
      = .ok ⟨.faiss, []⟩ :=
  (build_then_load [] ⟨true, true, true⟩ emptyFS "faiss"
    ⟨⟨some "faiss", some [], none, none⟩, .faiss, [.faiss]⟩ rfl).2.1 rfl

/-- Counterexample to claim C6 as stated, in two parts.  First, a build that
fell back to DocArray leaves `docs.json`, and a second successful FAISS
build at the same path overwrites the marker and writes its payload but the
first build's fallback record is still there.  Second, a Chroma build
followed by another Chroma build at the same path appends to the persisted
collection, so the subsequent load returns the first batch's document
(content `"x"`, absent from the second batch) ahead of the new one. -/
theorem build_no_cleanup_cex :
    (build_and_save_store [⟨['x'], ⟨1, "a.pdf", "a.pdf-p1-c0"⟩⟩] ⟨false, false, true⟩
        emptyFS "faiss"
      = .ok ⟨⟨some "docarray", none, none,
          some [⟨['x'], ⟨1, "a.pdf", "a.pdf-p1-c0"⟩⟩]⟩, .docarray,
          [.faiss, .chroma, .docarray]⟩
    ∧ build_and_save_store [⟨['y'], ⟨1, "b.pdf", "b.pdf-p1-c0"⟩⟩] ⟨true, true, true⟩
          ⟨some "docarray", none, none, some [⟨['x'], ⟨1, "a.pdf", "a.pdf-p1-c0"⟩⟩]⟩ "faiss"
      = .ok ⟨⟨some "faiss", some [⟨['y'], ⟨1, "b.pdf", "b.pdf-p1-c0"⟩⟩], none,
          some [⟨['x'], ⟨1, "a.pdf", "a.pdf-p1-c0"⟩⟩]⟩, .faiss, [.faiss]⟩)
    ∧ (build_and_save_store [⟨['x'], ⟨1, "a.pdf", "a.pdf-p1-c0"⟩⟩] ⟨false, true, true⟩
          emptyFS "faiss"
        = .ok ⟨⟨some "chroma", none, some [⟨['x'], ⟨1, "a.pdf", "a.pdf-p1-c0"⟩⟩], none⟩,
            .chroma, [.faiss, .chroma]⟩
      ∧ build_and_save_store [⟨['y'], ⟨1, "b.pdf", "b.pdf-p1-c0"⟩⟩] ⟨false, true, true⟩
            ⟨some "chroma", none, some [⟨['x'], ⟨1, "a.pdf", "a.pdf-p1-c0"⟩⟩], none⟩ "faiss"
        = .ok ⟨⟨some "chroma", none,
            some [⟨['x'], ⟨1, "a.pdf", "a.pdf-p1-c0"⟩⟩,
              ⟨['y'], ⟨1, "b.pdf", "b.pdf-p1-c0"⟩⟩], none⟩,
            .chroma, [.faiss, .chroma]⟩
      ∧ load_store ⟨some "chroma", none,
            some [⟨['x'], ⟨1, "a.pdf", "a.pdf-p1-c0"⟩⟩,
              ⟨['y'], ⟨1, "b.pdf", "b.pdf-p1-c0"⟩⟩], none⟩
        = .ok ⟨.chroma, [⟨['x'], ⟨1, "a.pdf", "a.pdf-p1-c0"⟩⟩,
            ⟨['y'], ⟨1, "b.pdf", "b.pdf-p1-c0"⟩⟩]⟩) :=
  ⟨⟨rfl, rfl⟩, rfl, rfl, rfl⟩

/-- Claim C4, amended: the marker, when present and recognized, is the sole
determinant of which loader runs.  With marker `"faiss"` and no FAISS
payload, or marker `"docarray"` and no `docs.json`, the load fails; but with
marker `"chroma"` and no Chroma payload the load silently succeeds with a
usable (possibly empty) index — there is no `StoreCorrupted` check. -/
theorem load_store_dispatch (fs : FS) :
    (fs.marker = some "faiss" → fs.faissPayload = none →
        load_store fs = .error "faiss payload missing")
    ∧ (fs.marker = some "faiss" → ∀ d, fs.faissPayload = some d →
        load_store fs = .ok ⟨.faiss, d⟩)
    ∧ (fs.marker = some "chroma" →
        load_store fs = .ok ⟨.chroma, fs.chromaPayload.getD []⟩)
    ∧ (fs.marker = some "docarray" → fs.docsJson = none →
        load_store fs = .error "docs.json missing")
    ∧ (fs.marker = some "docarray" → ∀ raw, fs.docsJson = some raw →
        load_store fs = .ok ⟨.docarray, raw.map fun r => ⟨r.page_content, r.metadata⟩⟩) := by
  refine ⟨?_, ?_, ?_, ?_, ?_⟩ <;> intro hm
  · intro hp; simp [load_store, _read_store_type, hm, hp]
  · intro d hp; simp [load_store, _read_store_type, hm, hp]
  · simp [load_store, _read_store_type, hm]
  · intro hp; simp [load_store, _read_store_type, hm, hp]
  · intro raw hp; simp [load_store, _read_store_type, hm, hp]

/-- Witness for the amended C4: marker `"faiss"` with the payload missing
does fail the load. -/
theorem load_store_dispatch_w :
    load_store ⟨some "faiss", none, none, none⟩ = .error "faiss payload missing" :=
  (load_store_dispatch ⟨some "faiss", none, none, none⟩).1 rfl rfl

/-- Counterexample to claim C4 as stated: marker `"chroma"` with no backend
payload at all loads successfully as an empty, usable index instead of
failing with a corruption error. -/
theorem load_store_chroma_cex :
    load_store ⟨some "chroma", none, none, none⟩ = .ok ⟨.chroma, []⟩ := by
  simp [load_store, _read_store_type]

/-! ## History reconstruction and the `/chat` handler (`src/app.py`) -/

/-- One citation `{source, page}` derived from retrieved document
metadata. -/
structure Citation where
  source : String
  page : Nat
deriving DecidableEq, Repr

/-- One entry of the session history log. User turns carry no citations. -/
structure HistEntry where
  role : String
  content : String
  citations : Option (List Citation) := none
deriving DecidableEq, Repr

/-- The history-pairing loop of `chat` (`src/app.py` lines 179-189): scan
entries keeping the pending user slot `last_user`. -/
def reconstructAux : Option String → List HistEntry → List (String × String)
  | _, [] => []
  | pending, e :: rest =>
    if e.role = "user" then reconstructAux (some e.content) rest
    else if e.role = "assistant" then
      match pending with
      | some u => (u, e.content) :: reconstructAux none rest
      | none => reconstructAux none rest
    else reconstructAux pending rest

/-- Reconstruction of `(human, ai)` pairs from the stored history, starting
with an empty pending slot. -/
def reconstruct (entries : List HistEntry) : List (String × String) :=
  reconstructAux none entries

/-- Claim C3: a user entry overwrites the pending slot, an assistant entry
with a pending user emits the pair and clears the slot, an assistant entry
without one is dropped, and the three example logs reconstruct exactly as
the spec states. -/
theorem history_pairing :
    (∀ (p : Option String) (u : String) (cs : Option (List Citation)) (rest : List HistEntry),
        reconstructAux p (⟨"user", u, cs⟩ :: rest) = reconstructAux (some u) rest)
    ∧ (∀ (u a : String) (cs : Option (List Citation)) (rest : List HistEntry),
        reconstructAux (some u) (⟨"assistant", a, cs⟩ :: rest)
          = (u, a) :: reconstructAux none rest)
    ∧ (∀ (a : String) (cs : Option (List Citation)) (rest : List HistEntry),
        reconstructAux none (⟨"assistant", a, cs⟩ :: rest) = reconstructAux none rest)
    ∧ reconstruct [⟨"user", "A", none⟩, ⟨"assistant", "B", none⟩,
        ⟨"user", "C", none⟩, ⟨"assistant", "D", none⟩] = [("A", "B"), ("C", "D")]
    ∧ reconstruct [⟨"user", "A", none⟩, ⟨"user", "C", none⟩, ⟨"assistant", "D", none⟩]
        = [("C", "D")]
    ∧ reconstruct [⟨"assistant", "X", none⟩] = [] := by
  refine ⟨fun p u cs rest => rfl, fun u a cs rest => rfl, fun a cs rest => rfl, rfl, rfl, rfl⟩

/-- The dict returned by `conv.invoke`: possible `answer` and `result` keys
plus `source_documents`. -/
structure InvokeResult where
  answerField : Option String
  resultField : Option String
  source_documents : List Document

/-- Environment for one `/chat` request: whether `load_store` and `get_llm`
succeed, and what `conv.invoke` returns (`none` models an exception). -/
structure ChatEnv where
  loadOk : Bool
  llmOk : Bool
  invoke : String → List (String × String) → Option InvokeResult

/-- The per-session state the handler reads and writes. -/
structure Session where
  ready : Bool
  history : List HistEntry

/-- The JSON response of `/chat`: 200 with answer and citations, or an error
status (400, 409 or 500). -/
inductive ChatResponse
  | ok (answer : String) (citations : List Citation)
  | err (status : Nat)
deriving DecidableEq

/-- Python `a or b` for an optional string `a`: `b` when `a` is `None` or
empty. -/
def pyOrElse (a : Option String) (b : String) : String :=
  match a with
  | some s => if s = "" then b else s
  | none => b

/-- The `/chat` handler of `src/app.py`: validate the stripped question and
the ready flag, load the store, build the LLM, invoke the conversational
chain on the reconstructed history, and only on success append the user and
assistant turns (with citations) to the history. -/
def chat (question : String) (sess : Session) (env : ChatEnv) : ChatResponse × Session :=
  let q := ⟨pyStrip question.data⟩
  if q = "" then (.err 400, sess)
  else if sess.ready = false then (.err 409, sess)
  else if env.loadOk = false then (.err 500, sess)
  else if env.llmOk = false then (.err 500, sess)
  else
    match env.invoke q (reconstruct sess.history) with
    | none => (.err 500, sess)
    | some res =>
      let answer := pyOrElse res.answerField (res.resultField.getD "")
      let citations := res.source_documents.map fun d =>
        Citation.mk d.metadata.source d.metadata.page
      let history := sess.history ++
        [⟨"user", q, none⟩, ⟨"assistant", answer, some citations⟩]
      (.ok answer citations, { sess with history := history })

/-- Claim C7: on any failing `/chat` request the session is returned
untouched, and on success exactly the user turn followed by the assistant
turn (with citations) are appended to the history. -/
theorem chat_history_integrity (question : String) (sess : Session) (env : ChatEnv) :
    (∀ code, (chat question sess env).1 = .err code → (chat question sess env).2 = sess)
    ∧ (∀ a cs, (chat question sess env).1 = .ok a cs →
        (chat question sess env).2.history
          = sess.history ++ [⟨"user", ⟨pyStrip question.data⟩, none⟩,
              ⟨"assistant", a, some cs⟩]) := by
  by_cases h1 : (⟨pyStrip question.data⟩ : String) = ""
  · simp [chat, h1]
  · by_cases h2 : sess.ready = false
    · simp [chat, h1, h2]
    · by_cases h3 : env.loadOk = false
      · simp [chat, h1, h2, h3]
      · by_cases h4 : env.llmOk = false
        · simp [chat, h1, h2, h3, h4]
        · rcases hinv : env.invoke ⟨pyStrip question.data⟩ (reconstruct sess.history)
            with _ | res
          · simp [chat, h1, h2, h3, h4, hinv]
          · refine ⟨?_, ?_⟩
            · intro code h
              simp [chat, h1, h2, h3, h4, hinv] at h
            · intro a cs h
              simp [chat, h1, h2, h3, h4, hinv] at h ⊢
              obtain ⟨ha, hcs⟩ := h
              simp [← ha, ← hcs]

/-- Witness for C7: a blank question leaves the session unchanged. -/
theorem chat_history_integrity_w :
    (chat "  " ⟨true, []⟩ ⟨true, true, fun _ _ => none⟩).2 = (⟨true, []⟩ : Session) :=
  (chat_history_integrity "  " ⟨true, []⟩ ⟨true, true, fun _ _ => none⟩).1 400 (by decide)

end PdfChatbot
